import Mathlib

/-!
# Gesture decoder and navigation state machine of the LoRa test node

Shallow embedding of `src/gui/button.h` (class `button_t`), of the
navigation part of `src/gui/gui.h` (`guiProcess`, `guiLoop`) and of the
constants of `src/gui/common.h`, followed by theorems about them. The
parameter sweep sequencer, whose code is not among the sources, is modelled
from the specification in namespace `Sweep`.

Conventions of the embedding:

* `uint32_t` values are natural numbers below `U32 = 2 ^ 32`; every store of a
  timestamp reduces it modulo `U32` and the subtraction `now - lastEvent` is
  the wrapping subtraction `sub32`.
* `digitalRead(pin) == LOW` and `millis()` are inputs of the functions that
  read them (`button_t.loop`, `button_t.held`).
* Methods that mutate the object return the new object together with the
  returned value.
* Drawing on the display and serial logging have no effect on the modelled
  state and are left out; the endless `while (true)` of the end screen is the
  result `none`.
-/

namespace Button

/-- What `loop()` is currently doing (`enum action_t`). -/
inductive action_t where
  | kIdle
  | kProcess
  | kWait
  deriving DecidableEq, Repr

/-- Classification of a press (`enum button_state_t`). -/
inductive button_state_t where
  | kReleased
  | kPressed
  | kLongPressed
  | kHeld
  deriving DecidableEq, Repr

/-- Number of values of a `uint32_t`. -/
def U32 : Nat := 4294967296

/-- Wrapping `uint32_t` subtraction `a - b`. -/
def sub32 (a b : Nat) : Nat := (a % U32 + U32 - b % U32) % U32

/-- Fields of `class button_t`. -/
structure button_t where
  pin : Nat
  longPressTime : Nat
  holdTime : Nat
  action : action_t
  lastEvent : Nat
  state : button_state_t
  buffer : button_state_t
  deriving DecidableEq, Repr

/-- Constructor `button_t(pin, longPressTime = 400, holdTime = 600)`: stores
the three arguments and starts idle and released. It performs no check. -/
def button_t.ctor (pin : Nat) (longPressTime : Nat) (holdTime : Nat) : button_t :=
  { pin := pin % U32
    longPressTime := longPressTime % U32
    holdTime := holdTime % U32
    action := action_t.kIdle
    lastEvent := 0
    state := button_state_t.kReleased
    buffer := button_state_t.kReleased }

/-- Method `loop()`; `pressed` is `digitalRead(pin) == LOW` and `millis` the
value `millis()` returns during the call. -/
def button_t.loop (b : button_t) (pressed : Bool) (millis : Nat) : button_t :=
  match b.action with
  | action_t.kWait =>
    if !pressed then
      { b with action := action_t.kIdle, state := button_state_t.kReleased }
    else b
  | action_t.kIdle =>
    if pressed then
      { b with action := action_t.kProcess, state := button_state_t.kPressed,
               lastEvent := millis % U32 }
    else b
  | action_t.kProcess =>
    if !pressed then
      { b with buffer := b.state, state := button_state_t.kReleased,
               action := action_t.kIdle }
    else
      let elapsed := sub32 millis b.lastEvent
      let b1 := if elapsed > b.longPressTime then
          { b with state := button_state_t.kLongPressed } else b
      if elapsed > b.holdTime then { b1 with state := button_state_t.kHeld } else b1

/-- Method `held()`; `millis` is the value `millis()` returns during the call. -/
def button_t.held (b : button_t) (millis : Nat) : button_t × Bool :=
  if b.state = button_state_t.kHeld then
    ({ b with state := button_state_t.kLongPressed, lastEvent := millis % U32 }, true)
  else (b, false)

/-- Method `longPressed()`. -/
def button_t.longPressed (b : button_t) : button_t × Bool :=
  if b.state = button_state_t.kLongPressed ∧ b.action = action_t.kProcess then
    ({ b with action := action_t.kWait }, true)
  else (b, false)

/-- Private method `consume(condition)`. -/
def button_t.consume (b : button_t) (condition : button_state_t) :
    button_t × button_state_t :=
  let buffer := b.buffer
  if buffer = condition then ({ b with buffer := button_state_t.kReleased }, buffer)
  else (b, buffer)

/-- Method `pressed()`. -/
def button_t.pressed (b : button_t) : button_t × Bool :=
  let r := b.consume button_state_t.kPressed
  (r.1, decide (r.2 = button_state_t.kPressed))

/-- One call made on a button by its owner: a `loop()` tick with the sample
and clock value it reads, or one of the three queries. -/
inductive Op where
  | loop (pressed : Bool) (millis : Nat)
  | pressed
  | longPressed
  | held (millis : Nat)
  deriving DecidableEq, Repr

/-- Effect of one call: the new object and the value returned (`none` for the
`void` method `loop`). -/
def exec (b : button_t) : Op → button_t × Option Bool
  | Op.loop p t => (b.loop p t, none)
  | Op.pressed => ((b.pressed).1, some (b.pressed).2)
  | Op.longPressed => ((b.longPressed).1, some (b.longPressed).2)
  | Op.held t => ((b.held t).1, some (b.held t).2)

/-- Object after a sequence of calls. -/
def run (b : button_t) : List Op → button_t
  | [] => b
  | op :: ops => run (exec b op).1 ops

/-- Values returned by a sequence of calls, one entry per call. -/
def outputs (b : button_t) : List Op → List (Option Bool)
  | [] => []
  | op :: ops => (exec b op).2 :: outputs (exec b op).1 ops

/-- The queries of a sequence of calls that returned `true`, in order. -/
def fired (b : button_t) : List Op → List Op
  | [] => []
  | op :: ops =>
    if (exec b op).2 = some true then op :: fired (exec b op).1 ops
    else fired (exec b op).1 ops

/-- A call that is a `loop()` tick. -/
def Op.isLoop : Op → Bool
  | Op.loop _ _ => true
  | _ => false

/-- A call that is a `loop()` tick sampling the button released. -/
def Op.isRelease : Op → Bool
  | Op.loop false _ => true
  | _ => false

/-- A call that is a `loop()` tick sampling the button down. -/
def Op.isPress : Op → Bool
  | Op.loop true _ => true
  | _ => false

/-- Outputs of a sequence of calls in which no query fires. -/
def quiet (ops : List Op) : List (Option Bool) :=
  ops.map (fun op => if op.isLoop then none else some false)

/-- Every `loop()` tick of the sequence is followed by a `pressed()` call
before the next tick and before the sequence ends; `pending` tells whether a
tick is still waiting for its `pressed()` call. -/
def polledFrom : Bool → List Op → Bool
  | pending, [] => !pending
  | pending, Op.loop _ _ :: ops => !pending && polledFrom true ops
  | _, Op.pressed :: ops => polledFrom false ops
  | pending, Op.longPressed :: ops => polledFrom pending ops
  | pending, Op.held _ :: ops => polledFrom pending ops

/-- A sequence of calls in which `pressed()` is polled after every tick. -/
def Polled (ops : List Op) : Prop := polledFrom false ops = true

instance (ops : List Op) : Decidable (Polled ops) := by
  unfold Polled; infer_instance

/-- A call made while a short press is going on: a query, or a tick that
samples the button down no more than `longPressTime` after the press began at
`t0`. -/
def ShortTick (t0 longPressTime : Nat) : Op → Prop
  | Op.loop p t => p = true ∧ sub32 t (t0 % U32) ≤ longPressTime
  | _ => True

instance (t0 longPressTime : Nat) (op : Op) : Decidable (ShortTick t0 longPressTime op) := by
  cases op <;> unfold ShortTick <;> infer_instance

/-- A `longPressed()` or `held()` call. -/
def Op.isLongQuery : Op → Bool
  | Op.longPressed => true
  | Op.held _ => true
  | _ => false

/-- The calls of a sustained press on which only `held()` is polled: for each
pair `(t, p)` a tick sampling the button down at clock value `t`, then a
`held()` call at clock value `p`. -/
def holdOps : List (Nat × Nat) → List Op
  | [] => []
  | (t, p) :: rest => Op.loop true t :: Op.held p :: holdOps rest

/-- Expected outputs of `holdOps`, in the words of the specification: `held()`
returns true at a tick whose elapsed time since the reference instant `ref`
exceeds `holdTime`, and the reference instant is then the instant it fired;
otherwise it returns false and the reference instant stays. The reference
instant is at first the instant the press began. -/
def heldRef (holdTime : Nat) : Nat → List (Nat × Nat) → List (Option Bool)
  | _, [] => []
  | ref, (t, p) :: rest =>
    if sub32 t ref > holdTime then none :: some true :: heldRef holdTime (p % U32) rest
    else none :: some false :: heldRef holdTime ref rest

/-- During a press, before the release is sampled, the latch holds no short
press and the decoder is not idle. -/
def InPress (b : button_t) : Prop :=
  b.buffer ≠ button_state_t.kPressed ∧ b.action ≠ action_t.kIdle

/-- The press has been seen beyond the long-press threshold: the decoder
waits for the release, or tracks a press no longer classified as short. -/
def Crossed (b : button_t) : Prop :=
  b.buffer ≠ button_state_t.kPressed ∧
    (b.action = action_t.kWait ∨
      (b.action = action_t.kProcess ∧ b.state ≠ button_state_t.kPressed))

/-- The decoder is idle and the latch holds no short press. -/
def IdleUnlatched (b : button_t) : Prop :=
  b.buffer ≠ button_state_t.kPressed ∧ b.action = action_t.kIdle

/-- The decoder's phase and its classification agree: idle goes with
released, waiting for the release with long-pressed, and tracking a press
with pressed, long-pressed or held. -/
def Coherent (b : button_t) : Prop :=
  (b.action = action_t.kIdle → b.state = button_state_t.kReleased) ∧
  (b.action = action_t.kWait → b.state = button_state_t.kLongPressed) ∧
  (b.action = action_t.kProcess →
    b.state = button_state_t.kPressed ∨ b.state = button_state_t.kLongPressed ∨
      b.state = button_state_t.kHeld)

end Button

namespace Gui

open Button

/-- Screens of the interface (`enum screen_t`). -/
inductive screen_t where
  | kRoleSelection
  | kConfirmTest
  | kCountdown
  | kReport
  | kEndScreen
  deriving DecidableEq, Repr

/-- Value of a `screen_t` enumerator. -/
def screen_t.toNat : screen_t → Nat
  | screen_t.kRoleSelection => 0
  | screen_t.kConfirmTest => 1
  | screen_t.kCountdown => 2
  | screen_t.kReport => 3
  | screen_t.kEndScreen => 4

/-- Role of the module (`enum role_t` of `common.h`). -/
inductive role_t where
  | kReceiver
  | kTransmitter
  deriving DecidableEq, Repr

/-- Counters of a test (`struct test_progress_t` of `common.h`). -/
structure test_progress_t where
  progress : Nat
  successes : Nat
  crcErrors : Nat
  losses : Nat
  deriving DecidableEq, Repr

/-- The fields of the global `_moduleState` of `common.h` other than the radio
parameters, which the interface only prints. -/
structure module_state_t where
  role : role_t
  currentTest : test_progress_t
  wholeTest : test_progress_t
  deriving DecidableEq, Repr

/-- The globals of `gui.h` and `common.h` that `guiLoop` reads or writes:
`_button`, `_guiLazy`, `_guiScreen` and `_moduleState`. -/
structure gui_t where
  button : button_t
  guiLazy : Bool
  guiScreen : screen_t
  moduleState : module_state_t
  deriving DecidableEq, Repr

/-- Function `guiInit()`: the interface starts on the role selection screen,
not lazy. -/
def guiInit (g : gui_t) : gui_t :=
  { g with guiScreen := screen_t.kRoleSelection, guiLazy := false }

/-- Function `guiGoto(screen)`. -/
def guiGoto (g : gui_t) (screen : screen_t) : gui_t :=
  { g with guiScreen := screen, guiLazy := false }

/-- Function `guiProcess()`: the globals after the call and the returned next
screen, or `none` when the call never returns (the end screen, once drawn,
waits forever). -/
def guiProcess (g : gui_t) : Option (gui_t × screen_t) :=
  match g.guiScreen with
  | screen_t.kRoleSelection =>
    let isTransmitter := decide (g.moduleState.role = role_t.kTransmitter)
    let lp := g.button.longPressed
    if lp.2 then
      let g1 := { g with
        button := lp.1
        moduleState := { g.moduleState with
          role := if isTransmitter then role_t.kReceiver else role_t.kTransmitter }
        guiLazy := false }
      some (g1, g1.guiScreen)
    else
      let pr := lp.1.pressed
      if pr.2 then some ({ g with button := pr.1 }, screen_t.kConfirmTest)
      else some ({ g with button := pr.1 }, g.guiScreen)
  | screen_t.kConfirmTest =>
    let pr := g.button.pressed
    if pr.2 then some ({ g with button := pr.1 }, screen_t.kCountdown)
    else some ({ g with button := pr.1 }, g.guiScreen)
  | screen_t.kCountdown => some (g, screen_t.kReport)
  | screen_t.kReport => some (g, g.guiScreen)
  | screen_t.kEndScreen =>
    if g.guiLazy then some (g, g.guiScreen) else none

/-- Function `guiLoop()`; `pressed` and `millis` are what `_button.loop()`
reads. The result is the globals after the call and the returned flag, or
`none` when the call never returns. -/
def guiLoop (g : gui_t) (pressed : Bool) (millis : Nat) : Option (gui_t × Bool) :=
  let g0 := { g with button := g.button.loop pressed millis }
  match guiProcess g0 with
  | none => none
  | some (g1, next) =>
    let g2 := { g1 with guiLazy := decide (next = g1.guiScreen), guiScreen := next }
    some (g2, decide (g2.guiScreen = screen_t.kReport))

/-- Successive `guiLoop()` calls, one per `(pressed, millis)` input; `none` as
soon as one of them never returns. -/
def guiRun (g : gui_t) : List (Bool × Nat) → Option gui_t
  | [] => some g
  | (p, t) :: rest =>
    match guiLoop g p t with
    | none => none
    | some (g1, _) => guiRun g1 rest

/-- The other role. -/
def role_t.toggle : role_t → role_t
  | role_t.kReceiver => role_t.kTransmitter
  | role_t.kTransmitter => role_t.kReceiver

/-- Reference step of the navigation table, in the words of the
specification; `lp` says that `longPressed()` fires and `pr` that `pressed()`
fires on this tick. -/
def navStep (screen : screen_t) (role : role_t) (lp pr : Bool) : screen_t × role_t :=
  match screen with
  | screen_t.kRoleSelection =>
    if lp then (screen_t.kRoleSelection, role.toggle)
    else if pr then (screen_t.kConfirmTest, role)
    else (screen_t.kRoleSelection, role)
  | screen_t.kConfirmTest =>
    if pr then (screen_t.kCountdown, role) else (screen_t.kConfirmTest, role)
  | screen_t.kCountdown => (screen_t.kReport, role)
  | screen_t.kReport => (screen_t.kReport, role)
  | screen_t.kEndScreen => (screen_t.kEndScreen, role)

/-- A session on the confirmation screen as transmitter, button untouched,
thresholds 400/600 as in `gui.h`. -/
def confirmingTransmitter : gui_t :=
  { button := button_t.ctor 0 400 600
    guiLazy := false
    guiScreen := screen_t.kConfirmTest
    moduleState :=
      { role := role_t.kTransmitter
        currentTest := { progress := 0, successes := 0, crcErrors := 0, losses := 0 }
        wholeTest := { progress := 0, successes := 0, crcErrors := 0, losses := 0 } } }

end Gui

namespace Sweep

open Gui

/-- Macro `TESTS_PER_CONFIG` of `common.h`: tests per combination of
parameters. -/
def TESTS_PER_CONFIG : Nat := 100

/-- Array `sf` of `common.h`: the spreading factors under test. -/
def sf : List Nat := [7, 8, 9, 10, 11, 12]

/-- Array `cr` of `common.h`: the coding rates under test. -/
def cr : List Nat := [5, 8]

/-- Macro `POSSIBLE_SF` of `common.h`: the number of entries of `sf`. -/
def POSSIBLE_SF : Nat := sf.length

/-- Macro `POSSIBLE_CR` of `common.h`: the number of entries of `cr`. -/
def POSSIBLE_CR : Nat := cr.length

/-- Macro `POSSIBLE_PARAMETERS` of `common.h`. -/
def POSSIBLE_PARAMETERS : Nat := POSSIBLE_SF * POSSIBLE_CR

/-- Macro `TEST_COUNT` of `common.h`. -/
def TEST_COUNT : Nat := POSSIBLE_PARAMETERS * TESTS_PER_CONFIG

/-- Modelled from the spec: the outcome of one trial, which the radio
collaborator reports to the sequencer; the code that runs the trials is not
among the sources. -/
inductive Outcome where
  | Success
  | CrcError
  | Loss
  deriving DecidableEq, Repr

/-- Modelled from the spec: `recordOutcome` of the Test Statistics
Aggregator, whose code is not among the sources; it increments the number of
completed trials and exactly one of the three counters. -/
def recordOutcome (p : test_progress_t) : Outcome → test_progress_t
  | Outcome.Success => { p with progress := p.progress + 1, successes := p.successes + 1 }
  | Outcome.CrcError => { p with progress := p.progress + 1, crcErrors := p.crcErrors + 1 }
  | Outcome.Loss => { p with progress := p.progress + 1, losses := p.losses + 1 }

/-- Modelled from the spec: `reset` of the Test Statistics Aggregator, whose
code is not among the sources; it zeroes all four fields. -/
def reset : test_progress_t :=
  { progress := 0, successes := 0, crcErrors := 0, losses := 0 }

/-- Modelled from the spec: the `SweepState` of the Parameter Sweep
Sequencer together with the two aggregator instances it feeds; the sequencer
is not among the sources. -/
structure SweepState where
  configIndex : Nat
  trialInConfig : Nat
  currentTest : test_progress_t
  wholeTest : test_progress_t
  deriving DecidableEq, Repr

/-- Modelled from the spec: the state at the start of a session, which the
sources do not contain: first configuration, no trial done, counters
zeroed. -/
def sweepStart : SweepState :=
  { configIndex := 0, trialInConfig := 0, currentTest := reset, wholeTest := reset }

/-- Modelled from the spec: `currentParameters` of the Parameter Sweep
Sequencer, whose code is not among the sources: the spreading factor is
`SF[configIndex / |CR|]` and the coding rate `CR[configIndex % |CR|]`. The
result is `none` when an index is out of bounds. -/
def currentParameters (SF CR : List Nat) (configIndex : Nat) : Option (Nat × Nat) :=
  match SF[configIndex / CR.length]?, CR[configIndex % CR.length]? with
  | some s, some c => some (s, c)
  | _, _ => none

/-- Modelled from the spec: `advanceTrial` of the Parameter Sweep Sequencer,
whose code is not among the sources. It feeds the outcome to both aggregator
instances and increments `trialInConfig`; when that reaches `testsPerConfig`
it resets `trialInConfig` and the current instance and increments
`configIndex`. It does not check for completion, which is left to the
caller. -/
def advanceTrial (testsPerConfig : Nat) (s : SweepState) (outcome : Outcome) : SweepState :=
  let current := recordOutcome s.currentTest outcome
  let whole := recordOutcome s.wholeTest outcome
  let trial := s.trialInConfig + 1
  if trial = testsPerConfig then
    { configIndex := s.configIndex + 1, trialInConfig := 0, currentTest := reset,
      wholeTest := whole }
  else
    { configIndex := s.configIndex, trialInConfig := trial, currentTest := current,
      wholeTest := whole }

/-- Modelled from the spec: `isComplete` of the Parameter Sweep Sequencer,
whose code is not among the sources: the sweep is complete once
`configIndex < possibleParameters` no longer holds. -/
def isComplete (possibleParameters : Nat) (s : SweepState) : Bool :=
  decide (possibleParameters ≤ s.configIndex)

/-- State after `advanceTrial` has been called once per outcome of the list. -/
def runSweep (testsPerConfig : Nat) (s : SweepState) : List Outcome → SweepState
  | [] => s
  | o :: os => runSweep testsPerConfig (advanceTrial testsPerConfig s o) os

/-- The configurations visited by a sweep: the parameters derived from each
`configIndex` from 0 up to `|SF| * |CR| - 1`. -/
def visited (SF CR : List Nat) : List (Option (Nat × Nat)) :=
  (List.range (SF.length * CR.length)).map (currentParameters SF CR)

end Sweep

namespace Button

/-! ## Basic facts about sequences of calls -/

theorem run_cons (b : button_t) (op : Op) (ops : List Op) :
    run b (op :: ops) = run (exec b op).1 ops := rfl

theorem outputs_cons (b : button_t) (op : Op) (ops : List Op) :
    outputs b (op :: ops) = (exec b op).2 :: outputs (exec b op).1 ops := rfl

theorem run_append (b : button_t) (l1 l2 : List Op) :
    run b (l1 ++ l2) = run (run b l1) l2 := by
  induction l1 generalizing b with
  | nil => rfl
  | cons op ops ih => simp [run, ih]

theorem outputs_append (b : button_t) (l1 l2 : List Op) :
    outputs b (l1 ++ l2) = outputs b l1 ++ outputs (run b l1) l2 := by
  induction l1 generalizing b with
  | nil => rfl
  | cons op ops ih => simp [run, outputs, ih]

theorem fired_append (b : button_t) (l1 l2 : List Op) :
    fired b (l1 ++ l2) = fired b l1 ++ fired (run b l1) l2 := by
  induction l1 generalizing b with
  | nil => rfl
  | cons op ops ih =>
    simp only [List.cons_append, fired, run]
    split <;> simp [ih]

/-- A sequence of calls none of which changes the object or fires leaves the
object as it is and is quiet. -/
theorem run_outputs_of_noop (b : button_t) (ops : List Op)
    (h : ∀ op ∈ ops, exec b op = (b, if op.isLoop then none else some false)) :
    run b ops = b ∧ outputs b ops = quiet ops := by
  induction ops with
  | nil => exact ⟨rfl, rfl⟩
  | cons op ops ih =>
    have h1 := h op (List.mem_cons_self op ops)
    have h2 := ih (fun o ho => h o (List.mem_cons_of_mem op ho))
    simp only [run, outputs, quiet, List.map_cons, h1]
    exact ⟨h2.1, by rw [h2.2]; rfl⟩

/-- After `pressed()` the latch never holds a short press. -/
theorem pressed_buffer (b : button_t) :
    (b.pressed).1.buffer ≠ button_state_t.kPressed := by
  unfold button_t.pressed button_t.consume
  by_cases h : b.buffer = button_state_t.kPressed <;> simp [h]

/-- With `pressed()` polled after every tick, the latch holds no short press
once the sequence of calls is over. -/
theorem polled_buffer (ops : List Op) (b : button_t) (pending : Bool)
    (hb : pending = false → b.buffer ≠ button_state_t.kPressed)
    (hp : polledFrom pending ops = true) :
    (run b ops).buffer ≠ button_state_t.kPressed := by
  induction ops generalizing b pending with
  | nil =>
    simp only [polledFrom, Bool.not_eq_true'] at hp
    exact hb hp
  | cons op ops ih =>
    cases op with
    | loop p t =>
      simp only [polledFrom, Bool.and_eq_true, Bool.not_eq_true'] at hp
      exact ih _ true (fun h => absurd h (by decide)) hp.2
    | pressed =>
      simp only [polledFrom] at hp
      exact ih _ false (fun _ => pressed_buffer b) hp
    | longPressed =>
      simp only [polledFrom] at hp
      refine ih _ pending (fun h => ?_) hp
      have := hb h
      simp only [exec, button_t.longPressed]
      split <;> simpa using this
    | held t =>
      simp only [polledFrom] at hp
      refine ih _ pending (fun h => ?_) hp
      have := hb h
      simp only [exec, button_t.held]
      split <;> simpa using this

/-- While a press is tracked as short, a query or a tick sampling the button
down within the long-press threshold changes nothing and returns false. -/
theorem exec_short (b : button_t) (t0 : Nat) (op : Op)
    (hth : b.longPressTime < b.holdTime)
    (ha : b.action = action_t.kProcess) (hs : b.state = button_state_t.kPressed)
    (hl : b.lastEvent = t0 % U32) (hbuf : b.buffer ≠ button_state_t.kPressed)
    (hop : ShortTick t0 b.longPressTime op) :
    exec b op = (b, if op.isLoop then none else some false) := by
  cases op with
  | loop p t =>
    obtain ⟨hp, he⟩ := hop
    subst hp
    have h1 : ¬ sub32 t b.lastEvent > b.longPressTime := by rw [hl]; omega
    have h2 : ¬ sub32 t b.lastEvent > b.holdTime := by rw [hl]; omega
    simp [exec, button_t.loop, ha, h1, h2, Op.isLoop]
  | pressed =>
    simp [exec, button_t.pressed, button_t.consume, hbuf, Op.isLoop]
  | longPressed =>
    simp [exec, button_t.longPressed, hs, Op.isLoop]
  | held t =>
    simp [exec, button_t.held, hs, Op.isLoop]

/-- On a released button, `longPressed()` and `held()` change nothing and
return false. -/
theorem exec_longQuery_released (b : button_t) (op : Op)
    (hs : b.state = button_state_t.kReleased) (hop : op.isLongQuery = true) :
    exec b op = (b, if op.isLoop then none else some false) := by
  cases op with
  | loop p t => simp [Op.isLongQuery] at hop
  | pressed => simp [Op.isLongQuery] at hop
  | longPressed => simp [exec, button_t.longPressed, hs, Op.isLoop]
  | held t => simp [exec, button_t.held, hs, Op.isLoop]

/-- On a released button whose latch holds no short press, every query changes
nothing and returns false. -/
theorem exec_query_released (b : button_t) (op : Op)
    (hs : b.state = button_state_t.kReleased)
    (hbuf : b.buffer ≠ button_state_t.kPressed) (hop : op.isLoop = false) :
    exec b op = (b, if op.isLoop then none else some false) := by
  cases op with
  | loop p t => simp [Op.isLoop] at hop
  | pressed => simp [exec, button_t.pressed, button_t.consume, hbuf, Op.isLoop]
  | longPressed => simp [exec, button_t.longPressed, hs, Op.isLoop]
  | held t => simp [exec, button_t.held, hs, Op.isLoop]

/-- A short press seen from an idle object whose latch holds no short press:
the outputs of the whole cycle. -/
theorem outputs_short_cycle (b : button_t) (t0 tr : Nat) (mids qs1 qs2 : List Op)
    (hth : b.longPressTime < b.holdTime)
    (ha : b.action = action_t.kIdle) (hbuf : b.buffer ≠ button_state_t.kPressed)
    (hmid : ∀ op ∈ mids, ShortTick t0 b.longPressTime op)
    (hq1 : ∀ op ∈ qs1, op.isLongQuery = true)
    (hq2 : ∀ op ∈ qs2, op.isLoop = false) :
    outputs b ((Op.loop true t0 :: mids) ++ (Op.loop false tr :: qs1) ++ (Op.pressed :: qs2))
      = (none :: quiet mids) ++ (none :: quiet qs1) ++ (some true :: quiet qs2) := by
  -- the tick that samples the press
  have e1 : b.loop true t0 =
      { b with
        action := action_t.kProcess
        state := button_state_t.kPressed
        lastEvent := t0 % U32 } := by
    simp [button_t.loop, ha]
  -- the ticks and queries while the button is down
  have m := run_outputs_of_noop (b.loop true t0) mids (fun op hop =>
    exec_short _ t0 op (by rw [e1]; exact hth) (by rw [e1]) (by rw [e1]) (by rw [e1])
      (by rw [e1]; exact hbuf) (by rw [e1]; exact hmid op hop))
  -- the tick that samples the release
  have e2 : (b.loop true t0).loop false tr =
      { b with
        action := action_t.kIdle
        state := button_state_t.kReleased
        lastEvent := t0 % U32
        buffer := button_state_t.kPressed } := by
    rw [e1]; simp [button_t.loop]
  have q1 := run_outputs_of_noop ((b.loop true t0).loop false tr) qs1 (fun op hop =>
    exec_longQuery_released _ op (by rw [e2]) (hq1 op hop))
  -- the poll that reports the press
  have e3 : (((b.loop true t0).loop false tr).pressed) =
      ({ b with
         action := action_t.kIdle
         state := button_state_t.kReleased
         lastEvent := t0 % U32
         buffer := button_state_t.kReleased }, true) := by
    rw [e2]; simp [button_t.pressed, button_t.consume]
  have q2 := run_outputs_of_noop (((b.loop true t0).loop false tr).pressed).1 qs2
    (fun op hop => exec_query_released _ op (by rw [e3]) (by rw [e3]; simp) (hq2 op hop))
  simp only [List.cons_append, List.append_assoc]
  simp only [outputs_cons, exec, outputs_append, m.1, m.2, q1.1, q1.2, q2.2]
  rw [e3]

/-- No call changes the thresholds or the pin. -/
theorem exec_config (b : button_t) (op : Op) :
    (exec b op).1.longPressTime = b.longPressTime ∧
    (exec b op).1.holdTime = b.holdTime ∧ (exec b op).1.pin = b.pin := by
  cases op with
  | loop p t =>
    by_cases h1 : sub32 t b.lastEvent > b.longPressTime <;>
      by_cases h2 : sub32 t b.lastEvent > b.holdTime <;>
      cases hA : b.action <;> cases p <;>
      simp [exec, button_t.loop, hA, h1, h2]
  | pressed =>
    simp only [exec, button_t.pressed, button_t.consume]
    split <;> simp
  | longPressed =>
    simp only [exec, button_t.longPressed]
    split <;> simp
  | held t =>
    simp only [exec, button_t.held]
    split <;> simp

/-- No sequence of calls changes the thresholds or the pin. -/
theorem run_config (b : button_t) (ops : List Op) :
    (run b ops).longPressTime = b.longPressTime ∧
    (run b ops).holdTime = b.holdTime ∧ (run b ops).pin = b.pin := by
  induction ops generalizing b with
  | nil => exact ⟨rfl, rfl, rfl⟩
  | cons op ops ih =>
    have h1 := exec_config b op
    have h2 := ih (exec b op).1
    simp only [run_cons]
    exact ⟨h2.1.trans h1.1, h2.2.1.trans h1.2.1, h2.2.2.trans h1.2.2⟩

/-! ## Short presses -/

/-- C1: on a freshly constructed button with thresholds `lp < ht`, after any
calls `pre` in which `pressed()` was polled after every tick and that leave
the decoder idle, a press-release cycle in which no tick samples the button
down later than `lp` after the press began has these outputs: every query
made while the button is down returns false, `longPressed()` and `held()`
return false after the release too, the first `pressed()` call after the tick
that samples the release returns true, and every query after it (a second
`pressed()` call among them) returns false. -/
theorem short_press_reported_once (pin lp ht t0 tr : Nat) (pre mids qs1 qs2 : List Op)
    (hlp : lp < ht) (hht : ht < U32) (hpre : Polled pre)
    (hidle : (run (button_t.ctor pin lp ht) pre).action = action_t.kIdle)
    (hmid : ∀ op ∈ mids, ShortTick t0 lp op)
    (hq1 : ∀ op ∈ qs1, op.isLongQuery = true)
    (hq2 : ∀ op ∈ qs2, op.isLoop = false) :
    outputs (run (button_t.ctor pin lp ht) pre)
        ((Op.loop true t0 :: mids) ++ (Op.loop false tr :: qs1) ++ (Op.pressed :: qs2))
      = (none :: quiet mids) ++ (none :: quiet qs1) ++ (some true :: quiet qs2) := by
  have hc := run_config (button_t.ctor pin lp ht) pre
  have hl : (button_t.ctor pin lp ht).longPressTime = lp :=
    Nat.mod_eq_of_lt (Nat.lt_trans hlp hht)
  have hh : (button_t.ctor pin lp ht).holdTime = ht := Nat.mod_eq_of_lt hht
  apply outputs_short_cycle _ t0 tr mids qs1 qs2
  · rw [hc.1, hc.2.1, hl, hh]; exact hlp
  · exact hidle
  · exact polled_buffer pre _ false (fun _ => by simp [button_t.ctor]) hpre
  · rw [hc.1, hl]; exact hmid
  · exact hq1
  · exact hq2

/-- The 150 ms press of the specification, thresholds 400/600, after an
earlier short press: `pressed()` is true once, right after the release. -/
theorem short_press_reported_once_witness :
    outputs (run (button_t.ctor 0 400 600)
        [Op.loop true 0, Op.pressed, Op.loop false 100, Op.pressed])
      ((Op.loop true 1000 :: [Op.pressed, Op.longPressed, Op.held 1001,
          Op.loop true 1100, Op.pressed, Op.longPressed, Op.held 1101])
        ++ (Op.loop false 1150 :: [Op.longPressed, Op.held 1151])
        ++ (Op.pressed :: [Op.pressed, Op.longPressed, Op.held 1152]))
      = (none :: quiet [Op.pressed, Op.longPressed, Op.held 1001,
          Op.loop true 1100, Op.pressed, Op.longPressed, Op.held 1101])
        ++ (none :: quiet [Op.longPressed, Op.held 1151])
        ++ (some true :: quiet [Op.pressed, Op.longPressed, Op.held 1152]) :=
  short_press_reported_once 0 400 600 1000 1150
    [Op.loop true 0, Op.pressed, Op.loop false 100, Op.pressed]
    [Op.pressed, Op.longPressed, Op.held 1001,
      Op.loop true 1100, Op.pressed, Op.longPressed, Op.held 1101]
    [Op.longPressed, Op.held 1151] [Op.pressed, Op.longPressed, Op.held 1152]
    (by decide) (by decide) (by decide) (by decide) (by decide) (by decide) (by decide)

/-! ## Queries that cannot fire -/

/-- If every permitted call keeps an invariant and the query `q` does not
fire under the invariant, then `q` fires nowhere in a sequence of permitted
calls, and the invariant holds afterwards. -/
theorem fired_invariant (Inv : button_t → Prop) (ok : Op → Prop) (q : Op)
    (hstep : ∀ b op, Inv b → ok op →
      Inv (exec b op).1 ∧ (op = q → (exec b op).2 ≠ some true))
    (ops : List Op) (b : button_t) (hb : Inv b) (hops : ∀ op ∈ ops, ok op) :
    Inv (run b ops) ∧ q ∉ fired b ops := by
  induction ops generalizing b with
  | nil => exact ⟨hb, by simp [fired]⟩
  | cons op ops ih =>
    have h1 := hstep b op hb (hops op (List.mem_cons_self op ops))
    have h2 := ih (exec b op).1 h1.1 (fun o ho => hops o (List.mem_cons_of_mem op ho))
    refine ⟨h2.1, ?_⟩
    simp only [fired]
    split
    · rename_i hf
      intro hmem
      rcases List.mem_cons.1 hmem with heq | hin
      · exact h1.2 heq.symm hf
      · exact h2.2 hin
    · exact h2.2

/-- While the decoder waits for the release, ticks that sample the button down
and queries keep it waiting, and `longPressed()` returns false. -/
theorem step_wait (b : button_t) (op : Op)
    (hb : b.action = action_t.kWait) (hop : op.isRelease = false) :
    (exec b op).1.action = action_t.kWait ∧
      (op = Op.longPressed → (exec b op).2 ≠ some true) := by
  cases op with
  | loop p t =>
    cases p
    · simp [Op.isRelease] at hop
    · simp [exec, button_t.loop, hb]
  | pressed =>
    simp only [exec, button_t.pressed, button_t.consume]
    split <;> simp [hb]
  | longPressed => simp [exec, button_t.longPressed, hb]
  | held t =>
    simp only [exec, button_t.held]
    split <;> simp [hb]

/-- While the decoder is not tracking a press, ticks that sample the button
released and queries do not make it track one, and `longPressed()` returns
false. -/
theorem step_not_tracking (b : button_t) (op : Op)
    (hb : b.action ≠ action_t.kProcess) (hop : op.isPress = false) :
    (exec b op).1.action ≠ action_t.kProcess ∧
      (op = Op.longPressed → (exec b op).2 ≠ some true) := by
  cases op with
  | loop p t =>
    cases p
    · cases hA : b.action <;> simp [exec, button_t.loop, hA] at hb ⊢
    · simp [Op.isPress] at hop
  | pressed =>
    simp only [exec, button_t.pressed, button_t.consume]
    split <;> simp [hb]
  | longPressed => simp [exec, button_t.longPressed, hb]
  | held t =>
    simp only [exec, button_t.held]
    split <;> simp [hb]

/-- C2: once `longPressed()` has returned true, no `longPressed()` call
returns true during any further calls `l1` whose ticks all sample the button
down, followed by any calls `l2` whose ticks all sample it released; the
queries `pressed()` and `held()` may be interleaved freely. With both lists
empty but for one `longPressed()` call: two consecutive calls return true
then false. -/
theorem longPressed_fires_once (b : button_t) (l1 l2 : List Op)
    (hfire : (b.longPressed).2 = true)
    (h1 : ∀ op ∈ l1, op.isRelease = false)
    (h2 : ∀ op ∈ l2, op.isPress = false) :
    Op.longPressed ∉ fired (b.longPressed).1 (l1 ++ l2) := by
  have hw : (b.longPressed).1.action = action_t.kWait := by
    unfold button_t.longPressed at hfire ⊢
    split at hfire
    · rename_i hc; simp [hc]
    · simp at hfire
  have p1 : (run (b.longPressed).1 l1).action = action_t.kWait ∧
      Op.longPressed ∉ fired (b.longPressed).1 l1 :=
    fired_invariant (fun x => x.action = action_t.kWait)
      (fun op => op.isRelease = false) Op.longPressed step_wait l1 _ hw h1
  have p2 : (run (run (b.longPressed).1 l1) l2).action ≠ action_t.kProcess ∧
      Op.longPressed ∉ fired (run (b.longPressed).1 l1) l2 :=
    fired_invariant (fun x => x.action ≠ action_t.kProcess)
      (fun op => op.isPress = false) Op.longPressed step_not_tracking l2
      (run (b.longPressed).1 l1)
      (by show (run (b.longPressed).1 l1).action ≠ action_t.kProcess
          rw [p1.1]; decide) h2
  rw [fired_append]
  intro hmem
  rcases List.mem_append.1 hmem with h | h
  · exact p1.2 h
  · exact p2.2 h

/-- A press held from 0 ms with thresholds 400/600: `longPressed()` fires
after the tick at 500 ms and is not repeated by a second call, by later ticks
with the button down, or after the release. -/
theorem longPressed_fires_once_witness :
    ((run (button_t.ctor 0 400 600) [Op.loop true 0, Op.loop true 500]).longPressed).2 = true ∧
    Op.longPressed ∉ fired
      ((run (button_t.ctor 0 400 600) [Op.loop true 0, Op.loop true 500]).longPressed).1
      ([Op.longPressed, Op.loop true 700, Op.held 700, Op.pressed, Op.longPressed,
        Op.loop true 5000, Op.longPressed]
        ++ [Op.loop false 6000, Op.longPressed, Op.pressed, Op.longPressed]) :=
  ⟨by decide,
   longPressed_fires_once (run (button_t.ctor 0 400 600) [Op.loop true 0, Op.loop true 500])
    [Op.longPressed, Op.loop true 700, Op.held 700, Op.pressed, Op.longPressed,
      Op.loop true 5000, Op.longPressed]
    [Op.loop false 6000, Op.longPressed, Op.pressed, Op.longPressed]
    (by decide) (by decide) (by decide)⟩

/-! ## Long presses -/

/-- C3: thresholds 400/600, button sampled down at 0 ms and next at 700 ms,
`longPressed()` polled after every tick and `held()` never called. The tick
at 700 ms is the first one at which the button is down with an elapsed time
above `longPressTime`, yet `longPressed()` returns false there and at every
later tick of the press: the tick classified the press as held, which
`longPressed()` does not look at. -/
theorem longPressed_missed_after_jump :
    sub32 700 (run (button_t.ctor 0 400 600) [Op.loop true 0, Op.longPressed]).lastEvent
        > (button_t.ctor 0 400 600).longPressTime ∧
    (run (button_t.ctor 0 400 600)
        [Op.loop true 0, Op.longPressed, Op.loop true 700]).state = button_state_t.kHeld ∧
    outputs (button_t.ctor 0 400 600)
        [Op.loop true 0, Op.longPressed, Op.loop true 700, Op.longPressed,
         Op.loop true 800, Op.longPressed, Op.loop true 10000, Op.longPressed]
      = [none, some false, none, some false, none, some false, none, some false] := by
  decide

theorem step_inPress (b : button_t) (op : Op)
    (hb : InPress b) (hop : op.isRelease = false) :
    InPress (exec b op).1 ∧ (op = Op.pressed → (exec b op).2 ≠ some true) := by
  obtain ⟨hbuf, hact⟩ := hb
  unfold InPress
  cases op with
  | loop p t =>
    cases p
    · simp [Op.isRelease] at hop
    · by_cases h1 : sub32 t b.lastEvent > b.longPressTime <;>
        by_cases h2 : sub32 t b.lastEvent > b.holdTime <;>
        cases hA : b.action <;>
        simp [exec, button_t.loop, hA, h1, h2, hbuf] at hact ⊢
  | pressed => simp [exec, button_t.pressed, button_t.consume, hbuf, hact]
  | longPressed =>
    simp only [exec, button_t.longPressed]
    split <;> simp [hbuf, hact]
  | held t =>
    simp only [exec, button_t.held]
    split <;> simp [hbuf, hact]

theorem step_crossed (b : button_t) (op : Op)
    (hb : Crossed b) (hop : op.isRelease = false) :
    Crossed (exec b op).1 ∧ (op = Op.pressed → (exec b op).2 ≠ some true) := by
  obtain ⟨hbuf, hact⟩ := hb
  unfold Crossed
  cases op with
  | loop p t =>
    cases p
    · simp [Op.isRelease] at hop
    · rcases hact with hA | ⟨hA, hS⟩
      · simp [exec, button_t.loop, hA, hbuf]
      · by_cases h1 : sub32 t b.lastEvent > b.longPressTime <;>
          by_cases h2 : sub32 t b.lastEvent > b.holdTime <;>
          simp [exec, button_t.loop, hA, h1, h2, hbuf, hS]
  | pressed => simp [exec, button_t.pressed, button_t.consume, hbuf, hact]
  | longPressed =>
    simp only [exec, button_t.longPressed]
    split <;> simp [hbuf, hact]
  | held t =>
    simp only [exec, button_t.held]
    split
    · rcases hact with hA | ⟨hA, _⟩ <;> simp [hbuf, hA]
    · simp [hbuf, hact]

theorem step_idleUnlatched (b : button_t) (op : Op)
    (hb : IdleUnlatched b) (hop : op.isPress = false) :
    IdleUnlatched (exec b op).1 ∧ (op = Op.pressed → (exec b op).2 ≠ some true) := by
  obtain ⟨hbuf, hact⟩ := hb
  unfold IdleUnlatched
  cases op with
  | loop p t =>
    cases p
    · simp [exec, button_t.loop, hact, hbuf]
    · simp [Op.isPress] at hop
  | pressed => simp [exec, button_t.pressed, button_t.consume, hbuf, hact]
  | longPressed => simp [exec, button_t.longPressed, hbuf, hact]
  | held t =>
    simp only [exec, button_t.held]
    split <;> simp [hbuf, hact]

/-- A tick that samples the button down beyond the long-press threshold
during a press leaves the press crossed. -/
theorem crossing_tick (b : button_t) (t : Nat) (hb : InPress b)
    (hc : sub32 t b.lastEvent > b.longPressTime) : Crossed (b.loop true t) := by
  obtain ⟨hbuf, hact⟩ := hb
  unfold Crossed
  by_cases h2 : sub32 t b.lastEvent > b.holdTime <;>
    cases hA : b.action <;>
    simp [button_t.loop, hA, hc, h2, hbuf] at hact ⊢

/-- The tick that samples the release of a crossed press leaves the decoder
idle with no short press latched. -/
theorem release_crossed (b : button_t) (t : Nat) (hb : Crossed b) :
    IdleUnlatched (b.loop false t) := by
  obtain ⟨hbuf, hact⟩ := hb
  unfold IdleUnlatched
  rcases hact with hA | ⟨hA, hS⟩
  · simp [button_t.loop, hA, hbuf]
  · simp [button_t.loop, hA, hS]

theorem fired_loop (b : button_t) (p : Bool) (t : Nat) (ops : List Op) :
    fired b (Op.loop p t :: ops) = fired (b.loop p t) ops := by
  simp [fired, exec]

/-- C4, as the claim states it, fails: thresholds 400/600, press sampled at
0 ms and release sampled at 500 ms with no tick in between. The cycle lasts
500 ms, more than `longPressTime`, and `pressed()` returns true after the
release. -/
theorem pressed_reports_long_cycle :
    sub32 500 0 > (button_t.ctor 0 400 600).longPressTime ∧
    outputs (button_t.ctor 0 400 600)
        [Op.loop true 0, Op.pressed, Op.loop false 500, Op.pressed]
      = [none, some false, none, some true] := by
  decide

/-- C4, amended: on a freshly constructed button, after any calls `pre` in
which `pressed()` was polled after every tick and that leave the decoder
idle, take a press sampled at `t0` and released at `tr` during which some
tick samples the button down at an elapsed time `now - lastEvent` above
`longPressTime`. Then no `pressed()` call returns true, neither during the
press, nor after the release, nor at later ticks that sample the button
released, however `longPressed()` and `held()` are interleaved. -/
theorem crossed_press_not_reported (pin lp ht t0 t tr : Nat) (pre m1 m2 qs : List Op)
    (hpre : Polled pre)
    (hidle : (run (button_t.ctor pin lp ht) pre).action = action_t.kIdle)
    (hm1 : ∀ op ∈ m1, op.isRelease = false)
    (hm2 : ∀ op ∈ m2, op.isRelease = false)
    (hqs : ∀ op ∈ qs, op.isPress = false)
    (hcross : sub32 t (run (run (button_t.ctor pin lp ht) pre) (Op.loop true t0 :: m1)).lastEvent
      > (button_t.ctor pin lp ht).longPressTime) :
    Op.pressed ∉ fired (run (button_t.ctor pin lp ht) pre)
      ((Op.loop true t0 :: m1) ++ (Op.loop true t :: m2) ++ (Op.loop false tr :: qs)) := by
  have hbuf : (run (button_t.ctor pin lp ht) pre).buffer ≠ button_state_t.kPressed :=
    polled_buffer pre _ false (fun _ => by simp [button_t.ctor]) hpre
  have hcfg := run_config (button_t.ctor pin lp ht) pre
  generalize run (button_t.ctor pin lp ht) pre = B at hidle hcross hbuf hcfg
  have h1 : InPress (B.loop true t0) := by
    unfold InPress; simp [button_t.loop, hidle, hbuf]
  have p1 : InPress (run (B.loop true t0) m1) ∧ Op.pressed ∉ fired (B.loop true t0) m1 :=
    fired_invariant InPress (fun op => op.isRelease = false) Op.pressed step_inPress
      m1 _ h1 hm1
  have hc : Crossed ((run (B.loop true t0) m1).loop true t) := by
    apply crossing_tick _ _ p1.1
    have e1 := (run_config (B.loop true t0) m1).1
    have e2 := (exec_config B (Op.loop true t0)).1
    simp only [exec] at e2
    rw [e1, e2, hcfg.1]
    exact hcross
  have p2 : Crossed (run ((run (B.loop true t0) m1).loop true t) m2) ∧
      Op.pressed ∉ fired ((run (B.loop true t0) m1).loop true t) m2 :=
    fired_invariant Crossed (fun op => op.isRelease = false) Op.pressed step_crossed
      m2 _ hc hm2
  have p3 := fired_invariant IdleUnlatched (fun op => op.isPress = false) Op.pressed
    step_idleUnlatched qs _ (release_crossed _ tr p2.1) hqs
  simp only [fired_append, fired_loop, run_append, run_cons, exec, List.mem_append, not_or]
  exact ⟨⟨p1.2, p2.2⟩, p3.2⟩

/-- A press sampled down at 450 ms, thresholds 400/600, released at 500 ms:
`pressed()` never returns true. -/
theorem crossed_press_not_reported_witness :
    Op.pressed ∉ fired (run (button_t.ctor 0 400 600) [])
      ((Op.loop true 0 :: [Op.pressed]) ++ (Op.loop true 450 :: [Op.pressed])
        ++ (Op.loop false 500 :: [Op.pressed, Op.loop false 600, Op.pressed])) :=
  crossed_press_not_reported 0 400 600 0 450 500 [] [Op.pressed] [Op.pressed]
    [Op.pressed, Op.loop false 600, Op.pressed]
    (by decide) (by decide) (by decide) (by decide) (by decide) (by decide)

/-! ## Holding the button -/

/-- The wrapping difference between a clock value and the stored value of an
earlier one is the time that passed, when that is less than `2 ^ 32`. -/
theorem sub32_add (t0 k : Nat) (hk : k < U32) : sub32 (t0 + k) (t0 % U32) = k := by
  unfold sub32 U32 at *
  omega

/-- C5, as the claim states it, fails: thresholds 400/600, button down from
0 ms. After the tick at 500 ms `longPressed()` returns true and `pressed()`
false, but after the tick at 650 ms `held()` returns false. -/
theorem held_silent_after_longPressed :
    outputs (button_t.ctor 0 400 600)
        [Op.loop true 0, Op.loop true 500, Op.longPressed, Op.pressed,
         Op.loop true 650, Op.held 650]
      = [none, none, some true, some false, none, some false] := by
  decide

/-- C5, amended: thresholds 400/600, button sampled down at `t0` and kept
down. After the tick at `t0 + 500`, `longPressed()` returns true once (a
second call returns false) and `pressed()` returns false; the decoder then
waits for the release, so after the tick at `t0 + 650` `held()` returns
false. If `longPressed()` is not called, `held()` returns true after the tick
at `t0 + 650`. -/
theorem long_press_then_hold_scenario (pin t0 : Nat) :
    outputs (button_t.ctor pin 400 600)
        [Op.loop true t0, Op.loop true (t0 + 500), Op.longPressed, Op.longPressed,
         Op.pressed, Op.loop true (t0 + 650), Op.held (t0 + 650)]
      = [none, none, some true, some false, some false, none, some false] ∧
    outputs (button_t.ctor pin 400 600)
        [Op.loop true t0, Op.loop true (t0 + 500), Op.pressed,
         Op.loop true (t0 + 650), Op.held (t0 + 650)]
      = [none, none, some false, none, some true] := by
  have e1 := sub32_add t0 500 (by decide)
  have e2 := sub32_add t0 650 (by decide)
  have u1 : 400 % U32 = 400 := by decide
  have u2 : 600 % U32 = 600 := by decide
  constructor <;>
    simp [outputs, exec, button_t.ctor, button_t.loop, button_t.longPressed,
      button_t.pressed, button_t.consume, button_t.held, e1, e2, u1, u2]

/-- C7, as the claim states it, fails: thresholds 400/600, button down from
0 ms and sampled down again at 650 ms; `held()` called at 700 ms returns true
and stores 700 as `lastEvent`, not the old value 0 plus `holdTime`; called at
900 ms instead it stores 900. -/
theorem held_resamples_clock :
    ((run (button_t.ctor 0 400 600) [Op.loop true 0, Op.loop true 650]).held 700).2 = true ∧
    ((run (button_t.ctor 0 400 600) [Op.loop true 0, Op.loop true 650]).held 700).1.lastEvent
      = 700 ∧
    (run (button_t.ctor 0 400 600) [Op.loop true 0, Op.loop true 650]).lastEvent
      + (run (button_t.ctor 0 400 600) [Op.loop true 0, Op.loop true 650]).holdTime = 600 ∧
    ((run (button_t.ctor 0 400 600) [Op.loop true 0, Op.loop true 650]).held 900).1.lastEvent
      = 900 := by
  decide

/-- C7, amended: whenever `held()` returns true it re-arms by resampling the
clock: the new `lastEvent` is the value `millis()` returns during the call,
whatever the old `lastEvent` and `holdTime` are; the classification goes back
to long-pressed and nothing else changes. -/
theorem held_rearms_at_clock (b : button_t) (millis : Nat)
    (h : (b.held millis).2 = true) :
    (b.held millis).1 =
      { b with state := button_state_t.kLongPressed, lastEvent := millis % U32 } := by
  unfold button_t.held at h ⊢
  split at h
  · rename_i hs; simp [hs]
  · simp at h

/-- The re-arming of `held()` called at 700 ms on a press that began at 0 ms. -/
theorem held_rearms_at_clock_witness :
    ((run (button_t.ctor 0 400 600) [Op.loop true 0, Op.loop true 650]).held 700).1 =
      { run (button_t.ctor 0 400 600) [Op.loop true 0, Op.loop true 650] with
        state := button_state_t.kLongPressed, lastEvent := 700 % U32 } :=
  held_rearms_at_clock (run (button_t.ctor 0 400 600) [Op.loop true 0, Op.loop true 650]) 700
    (by decide)

/-- While a press is tracked and not classified as held, ticks that sample the
button down, each followed by a `held()` call, produce the outputs of the
reference `heldRef` started at the current `lastEvent`. -/
theorem outputs_holdOps (ticks : List (Nat × Nat)) (b : button_t)
    (ha : b.action = action_t.kProcess) (hs : b.state ≠ button_state_t.kHeld) :
    outputs b (holdOps ticks) = heldRef b.holdTime b.lastEvent ticks := by
  induction ticks generalizing b with
  | nil => rfl
  | cons tp rest ih =>
    obtain ⟨t, p⟩ := tp
    simp only [holdOps, heldRef, outputs_cons, exec]
    by_cases h2 : sub32 t b.lastEvent > b.holdTime
    · have e1 : (b.loop true t).held p =
          ({ b with state := button_state_t.kLongPressed, lastEvent := p % U32 }, true) := by
        by_cases h1 : sub32 t b.lastEvent > b.longPressTime <;>
          simp [button_t.loop, button_t.held, ha, h1, h2]
      rw [e1, if_pos h2]
      have := ih { b with state := button_state_t.kLongPressed, lastEvent := p % U32 }
        ha (by simp)
      simp only [this]
    · have e1 : (b.loop true t).held p = (b.loop true t, false) := by
        by_cases h1 : sub32 t b.lastEvent > b.longPressTime <;>
          simp [button_t.loop, button_t.held, ha, h1, h2, hs]
      have e2 : (b.loop true t).action = action_t.kProcess ∧
          (b.loop true t).state ≠ button_state_t.kHeld ∧
          (b.loop true t).holdTime = b.holdTime ∧
          (b.loop true t).lastEvent = b.lastEvent := by
        by_cases h1 : sub32 t b.lastEvent > b.longPressTime <;>
          simp [button_t.loop, ha, h1, h2, hs]
      rw [e1, if_neg h2]
      have := ih (b.loop true t) e2.1 e2.2.1
      rw [e2.2.2.1, e2.2.2.2] at this
      simp only [this]

/-- C6: a press that begins at `t0` on an idle decoder (a freshly constructed
one, or one on which only ticks and `held()` calls were made and the button
was released) and is kept down, with only `held()` polled after every tick:
`held()` returns false after the tick that samples the press, then true at
the first tick whose elapsed time since the press began exceeds `holdTime`,
false at the following ticks until one whose elapsed time since `held()` last
fired exceeds `holdTime`, true there, and so on without any release. -/
theorem held_fires_repeatedly (b : button_t) (t0 p0 : Nat) (ticks : List (Nat × Nat))
    (ha : b.action = action_t.kIdle) :
    outputs b (Op.loop true t0 :: Op.held p0 :: holdOps ticks)
      = none :: some false :: heldRef b.holdTime (t0 % U32) ticks := by
  have e1 : b.loop true t0 =
      { b with
        action := action_t.kProcess
        state := button_state_t.kPressed
        lastEvent := t0 % U32 } := by
    simp [button_t.loop, ha]
  have e2 : (b.loop true t0).held p0 = (b.loop true t0, false) := by
    rw [e1]; simp [button_t.held]
  simp only [outputs_cons, exec, e2]
  have := outputs_holdOps ticks (b.loop true t0) (by rw [e1]) (by rw [e1]; simp)
  rw [this, e1]

/-- A press kept down from 0 ms, thresholds 400/600: `held()` fires at the
tick at 650 ms (the call is made at 655 ms) and again at the tick at
1256 ms, the first one more than 600 ms after 655 ms. -/
theorem held_fires_repeatedly_witness :
    outputs (button_t.ctor 0 400 600)
        (Op.loop true 0 :: Op.held 0 ::
          holdOps [(300, 300), (650, 655), (1000, 1000), (1255, 1255), (1256, 1260)])
      = none :: some false :: heldRef (button_t.ctor 0 400 600).holdTime (0 % U32)
          [(300, 300), (650, 655), (1000, 1000), (1255, 1255), (1256, 1260)] ∧
    heldRef (button_t.ctor 0 400 600).holdTime (0 % U32)
        [(300, 300), (650, 655), (1000, 1000), (1255, 1255), (1256, 1260)]
      = [none, some false, none, some true, none, some false, none, some false,
         none, some true] :=
  ⟨held_fires_repeatedly (button_t.ctor 0 400 600) 0 0
    [(300, 300), (650, 655), (1000, 1000), (1255, 1255), (1256, 1260)] (by decide),
   by decide⟩

/-! ## Construction -/

/-- C8, as the claim states it, fails: the constructor accepts a hold
threshold of 400 with a long-press threshold of 600 and returns an object
that stores both. -/
theorem ctor_accepts_inverted_thresholds :
    (button_t.ctor 0 600 400).longPressTime = 600 ∧
    (button_t.ctor 0 600 400).holdTime = 400 ∧
    ¬ (button_t.ctor 0 600 400).holdTime > (button_t.ctor 0 600 400).longPressTime := by
  decide

/-- C8, amended: the constructor rejects nothing. For every pair of
thresholds it returns an idle, released object that stores them as given
(as `uint32_t`), whether or not `holdTime > longPressTime`; and no method
(`loop`, `pressed`, `longPressed`, `held`) changes the stored thresholds. -/
theorem ctor_stores_thresholds_unchecked (pin lp ht : Nat) (ops : List Op) :
    (button_t.ctor pin lp ht).longPressTime = lp % U32 ∧
    (button_t.ctor pin lp ht).holdTime = ht % U32 ∧
    (button_t.ctor pin lp ht).action = action_t.kIdle ∧
    (button_t.ctor pin lp ht).state = button_state_t.kReleased ∧
    (button_t.ctor pin lp ht).buffer = button_state_t.kReleased ∧
    (run (button_t.ctor pin lp ht) ops).longPressTime = lp % U32 ∧
    (run (button_t.ctor pin lp ht) ops).holdTime = ht % U32 := by
  have h := run_config (button_t.ctor pin lp ht) ops
  exact ⟨rfl, rfl, rfl, rfl, rfl, h.1, h.2.1⟩

end Button

namespace Gui

open Button

/-! ## Navigation -/

/-- C9: one `guiLoop()` tick is the reference step of the navigation table.
Either the call never returns, which happens only on the end screen (when it
has to be drawn), or it returns: then the new screen and role are those of
`navStep` applied to the old screen and role and to what `longPressed()` and
`pressed()` return on the button after its `loop()` tick, and the returned
flag is true exactly when the new screen is the report screen. -/
theorem guiLoop_eq_navStep (g : gui_t) (pressed : Bool) (millis : Nat) :
    (g.guiScreen = screen_t.kEndScreen ∧ g.guiLazy = false ∧
        guiLoop g pressed millis = none) ∨
    (∃ g1 : gui_t,
      guiLoop g pressed millis = some (g1, decide (g1.guiScreen = screen_t.kReport)) ∧
      (g1.guiScreen, g1.moduleState.role) =
        navStep g.guiScreen g.moduleState.role
          ((g.button.loop pressed millis).longPressed).2
          ((g.button.loop pressed millis).pressed).2) := by
  obtain ⟨b, lz, sc, ms⟩ := g
  obtain ⟨role, ct, wt⟩ := ms
  cases sc
  · -- role selection
    right
    by_cases hl : ((b.loop pressed millis).longPressed).2 = true
    · cases role <;> simp [guiLoop, guiProcess, navStep, hl, role_t.toggle] <;>
        exact ⟨_, ⟨rfl, by simp⟩, rfl, rfl⟩
    · have hl1 : ((b.loop pressed millis).longPressed).1 = b.loop pressed millis := by
        unfold button_t.longPressed at hl ⊢
        split
        · rename_i hc; simp [hc] at hl
        · rfl
      by_cases hp : ((b.loop pressed millis).pressed).2 = true <;>
        simp [guiLoop, guiProcess, navStep, hl, hl1, hp] <;>
        exact ⟨_, ⟨rfl, by simp⟩, rfl, rfl⟩
  · -- confirmation
    right
    by_cases hp : ((b.loop pressed millis).pressed).2 = true <;>
      simp [guiLoop, guiProcess, navStep, hp] <;>
      exact ⟨_, ⟨rfl, by simp⟩, rfl, rfl⟩
  · -- countdown
    right
    simp [guiLoop, guiProcess, navStep]
    exact ⟨_, ⟨rfl, by simp⟩, rfl, rfl⟩
  · -- report
    right
    simp [guiLoop, guiProcess, navStep]
    exact ⟨_, ⟨rfl, by simp⟩, rfl, rfl⟩
  · -- end screen
    cases lz
    · left; simp [guiLoop, guiProcess]
    · right
      simp [guiLoop, guiProcess, navStep]
      exact ⟨_, ⟨rfl, by simp⟩, rfl, rfl⟩

/-- A `guiLoop()` tick that returns never lowers the screen and, off the
role selection screen, keeps the role. -/
theorem guiLoop_forward (g g1 : gui_t) (pressed r : Bool) (millis : Nat)
    (h : guiLoop g pressed millis = some (g1, r)) :
    g.guiScreen.toNat ≤ g1.guiScreen.toNat ∧
    (g.guiScreen ≠ screen_t.kRoleSelection →
      g1.moduleState.role = g.moduleState.role) := by
  obtain ⟨b, lz, sc, ms⟩ := g
  cases sc
  · by_cases hl : ((b.loop pressed millis).longPressed).2 = true
    · simp [guiLoop, guiProcess, hl] at h
      obtain ⟨h1, _⟩ := h
      subst h1
      simp [screen_t.toNat]
    · by_cases hp : (((b.loop pressed millis).longPressed).1.pressed).2 = true <;>
        simp [guiLoop, guiProcess, hl, hp] at h <;>
        (obtain ⟨h1, _⟩ := h; subst h1; simp [screen_t.toNat])
  · by_cases hp : ((b.loop pressed millis).pressed).2 = true <;>
      simp [guiLoop, guiProcess, hp] at h <;>
      (obtain ⟨h1, _⟩ := h; subst h1; simp [screen_t.toNat])
  · simp [guiLoop, guiProcess] at h
    obtain ⟨h1, _⟩ := h
    subst h1
    simp [screen_t.toNat]
  · simp [guiLoop, guiProcess] at h
    obtain ⟨h1, _⟩ := h
    subst h1
    simp [screen_t.toNat]
  · cases lz
    · simp [guiLoop, guiProcess] at h
    · simp [guiLoop, guiProcess] at h
      obtain ⟨h1, _⟩ := h
      subst h1
      simp [screen_t.toNat]

/-- C10: over any number of `guiLoop()` ticks the screen index never
decreases, so the screen never goes back to role selection; and from a state
whose screen is not role selection, the role after the ticks is the role
before them, whatever the button did. -/
theorem role_fixed_after_selection (g g1 : gui_t) (ticks : List (Bool × Nat))
    (h : guiRun g ticks = some g1) :
    g.guiScreen.toNat ≤ g1.guiScreen.toNat ∧
    (g.guiScreen ≠ screen_t.kRoleSelection →
      g1.guiScreen ≠ screen_t.kRoleSelection ∧
      g1.moduleState.role = g.moduleState.role) := by
  induction ticks generalizing g with
  | nil =>
    simp only [guiRun, Option.some.injEq] at h
    subst h
    exact ⟨Nat.le_refl _, fun hs => ⟨hs, rfl⟩⟩
  | cons pt rest ih =>
    obtain ⟨p, t⟩ := pt
    simp only [guiRun] at h
    cases hstep : guiLoop g p t with
    | none => simp [hstep] at h
    | some res =>
      obtain ⟨g2, r⟩ := res
      simp only [hstep] at h
      have s1 := guiLoop_forward g g2 p r t hstep
      have s2 := ih g2 h
      refine ⟨Nat.le_trans s1.1 s2.1, fun hs => ?_⟩
      have hs2 : g2.guiScreen ≠ screen_t.kRoleSelection := by
        intro he
        have := s1.1
        rw [he] at this
        cases hg : g.guiScreen <;> simp [hg, screen_t.toNat] at this hs
      exact ⟨(s2.2 hs2).1, (s2.2 hs2).2.trans (s1.2 hs)⟩

/-- From the confirmation screen, a long press, a short press and two more
ticks lead to the report screen with the role still transmitter. -/
theorem role_fixed_after_selection_witness :
    guiRun confirmingTransmitter
        [(true, 0), (true, 500), (false, 600), (true, 700), (false, 750),
         (false, 800), (false, 801)]
      = some (Option.getD (guiRun confirmingTransmitter
        [(true, 0), (true, 500), (false, 600), (true, 700), (false, 750),
         (false, 800), (false, 801)]) confirmingTransmitter) ∧
    (Option.getD (guiRun confirmingTransmitter
        [(true, 0), (true, 500), (false, 600), (true, 700), (false, 750),
         (false, 800), (false, 801)]) confirmingTransmitter).guiScreen = screen_t.kReport ∧
    (Option.getD (guiRun confirmingTransmitter
        [(true, 0), (true, 500), (false, 600), (true, 700), (false, 750),
         (false, 800), (false, 801)]) confirmingTransmitter).moduleState.role
      = role_t.kTransmitter :=
  ⟨by decide, by decide,
   ((role_fixed_after_selection confirmingTransmitter _
      [(true, 0), (true, 500), (false, 600), (true, 700), (false, 750),
       (false, 800), (false, 801)] (by decide)).2 (by decide)).2⟩

end Gui

namespace Button

/-! ## Phase and classification -/

/-- Every call keeps the phase and the classification in agreement. -/
theorem exec_coherent (b : button_t) (op : Op) (hb : Coherent b) :
    Coherent (exec b op).1 := by
  obtain ⟨h1, h2, h3⟩ := hb
  unfold Coherent
  cases op with
  | loop p t =>
    by_cases c1 : sub32 t b.lastEvent > b.longPressTime <;>
      by_cases c2 : sub32 t b.lastEvent > b.holdTime <;>
      cases hA : b.action <;> cases p <;>
      simp [exec, button_t.loop, hA, c1, c2] at h1 h2 h3 ⊢ <;>
      first | exact h2 | exact h3 | exact h1
  | pressed =>
    simp only [exec, button_t.pressed, button_t.consume]
    split <;> exact ⟨h1, h2, h3⟩
  | longPressed =>
    simp only [exec, button_t.longPressed]
    split
    · rename_i hc; simp [hc.1]
    · exact ⟨h1, h2, h3⟩
  | held t =>
    simp only [exec, button_t.held]
    split
    · rename_i hc
      cases hA : b.action <;> simp [hA, hc] at h1 h2 h3 ⊢
    · exact ⟨h1, h2, h3⟩

/-- Every sequence of calls keeps the phase and the classification in
agreement. -/
theorem run_coherent (ops : List Op) (b : button_t) (hb : Coherent b) :
    Coherent (run b ops) := by
  induction ops generalizing b with
  | nil => exact hb
  | cons op ops ih => exact ih _ (exec_coherent b op hb)

/-- C13: in every state reached from a freshly constructed button by any
interleaving of `loop()` ticks (any samples and clock values), `pressed()`,
`longPressed()` and `held()` calls: an idle decoder is classified released, a
decoder waiting for the release is classified long-pressed, and a decoder
tracking a press is classified pressed, long-pressed or held; so `held()`
returns false whenever the decoder is waiting for the release. -/
theorem phase_matches_classification (pin lp ht : Nat) (ops : List Op) :
    ((run (button_t.ctor pin lp ht) ops).action = action_t.kIdle →
      (run (button_t.ctor pin lp ht) ops).state = button_state_t.kReleased) ∧
    ((run (button_t.ctor pin lp ht) ops).action = action_t.kWait →
      (run (button_t.ctor pin lp ht) ops).state = button_state_t.kLongPressed) ∧
    ((run (button_t.ctor pin lp ht) ops).action = action_t.kProcess →
      (run (button_t.ctor pin lp ht) ops).state = button_state_t.kPressed ∨
      (run (button_t.ctor pin lp ht) ops).state = button_state_t.kLongPressed ∨
      (run (button_t.ctor pin lp ht) ops).state = button_state_t.kHeld) ∧
    ((run (button_t.ctor pin lp ht) ops).action = action_t.kWait →
      ∀ millis : Nat, ((run (button_t.ctor pin lp ht) ops).held millis).2 = false) := by
  have h0 : Coherent (button_t.ctor pin lp ht) := by
    unfold Coherent; simp [button_t.ctor]
  have h := run_coherent ops _ h0
  refine ⟨h.1, h.2.1, h.2.2, fun hw millis => ?_⟩
  have hs := h.2.1 hw
  simp [button_t.held, hs]

/-- After `longPressed()` fired on a press held from 0 ms, thresholds
400/600, the decoder waits for the release and `held()` returns false even
700 ms into the press. -/
theorem phase_matches_classification_witness :
    (run (button_t.ctor 0 400 600)
      [Op.loop true 0, Op.loop true 500, Op.longPressed, Op.loop true 700]).action
        = action_t.kWait ∧
    ((run (button_t.ctor 0 400 600)
      [Op.loop true 0, Op.loop true 500, Op.longPressed, Op.loop true 700]).held 700).2
        = false :=
  ⟨by decide,
   (phase_matches_classification 0 400 600
      [Op.loop true 0, Op.loop true 500, Op.longPressed, Op.loop true 700]).2.2.2
      (by decide) 700⟩

end Button

namespace Sweep

open Gui

/-! ## Enumeration of the configurations -/

/-- Reading every position of a list in turn gives the list. -/
theorem map_range_getElem? (f : Nat → Nat × Nat) (l : List Nat) :
    (List.range l.length).map (fun i => (l[i]?).map f) = l.map (fun c => some (f c)) := by
  apply List.ext_getElem?
  intro n
  by_cases hn : n < l.length
  · simp [List.getElem?_map, List.getElem?_range, hn, List.getElem?_eq_getElem]
  · have hn2 : l.length ≤ n := Nat.le_of_not_lt hn
    simp [List.getElem?_map, List.getElem?_eq_none, hn2]

/-- Within the first block of indices, the spreading factor is the first
one and the coding rate is read at the index itself. -/
theorem currentParameters_head (s : Nat) (SF CR : List Nat) (i : Nat)
    (hi : i < CR.length) :
    currentParameters (s :: SF) CR i = (CR[i]?).map (fun c => (s, c)) := by
  have h1 : i / CR.length = 0 := Nat.div_eq_of_lt hi
  have h2 : i % CR.length = i := Nat.mod_eq_of_lt hi
  simp [currentParameters, h1, h2, List.getElem?_eq_getElem, hi]

/-- Past the first block of indices, the parameters are those of the
remaining spreading factors one block earlier. -/
theorem currentParameters_tail (s : Nat) (SF CR : List Nat) (i : Nat)
    (hn : 0 < CR.length) :
    currentParameters (s :: SF) CR (CR.length + i) = currentParameters SF CR i := by
  have h1 : (CR.length + i) / CR.length = i / CR.length + 1 := by
    rw [Nat.add_comm, Nat.add_div_right _ hn]
  have h2 : (CR.length + i) % CR.length = i % CR.length := by
    rw [Nat.add_comm, Nat.add_mod_right]
  simp [currentParameters, h1, h2]

/-- The configurations visited are the pairs of the product of the two
lists, spreading factors in the outer loop and coding rates in the inner
loop. -/
theorem visited_eq_product (SF CR : List Nat) :
    visited SF CR = (List.product SF CR).map some := by
  induction SF with
  | nil => simp [visited, List.product]
  | cons s SF ih =>
    unfold visited at ih ⊢
    have hlen : (s :: SF).length * CR.length = CR.length + SF.length * CR.length := by
      simp [Nat.succ_mul, Nat.add_comm]
    rw [hlen, List.range_add, List.map_append, List.map_map]
    have hp : List.product (s :: SF) CR = CR.map (fun c => (s, c)) ++ List.product SF CR :=
      List.product_cons s SF CR
    rw [hp, List.map_append, List.map_map]
    congr 1
    · refine Eq.trans ?_ (map_range_getElem? (fun c => (s, c)) CR)
      apply List.map_congr_left
      intro i hi
      exact currentParameters_head s SF CR i (List.mem_range.1 hi)
    · rw [← ih]
      rcases Nat.eq_zero_or_pos CR.length with h0 | hpos
      · simp [h0]
      · apply List.map_congr_left
        intro i _
        exact currentParameters_tail s SF CR i hpos

/-- C11: for all lists `SF` and `CR` of spreading factors and coding rates.
Every `configIndex` below `|SF| * |CR|` gives indices `configIndex / |CR|`
and `configIndex % |CR|` within the bounds of `SF` and `CR`. As `configIndex`
runs from 0 to `|SF| * |CR| - 1`, the derived pairs are exactly the pairs of
the product of `SF` and `CR` in its order (each spreading factor in turn, and
for each one every coding rate in turn), so a pair is visited if and only if
it combines a member of `SF` with a member of `CR`, and no pair is visited
twice when neither list repeats a value. For the session sets of `common.h`
this is the ascending order from (7,5) to (12,8), and for `SF = {7,8}`,
`CR = {5,8}` the order (7,5), (7,8), (8,5), (8,8). -/
theorem sweep_visits_each_configuration_once (SF CR : List Nat) :
    (∀ i : Nat, i < SF.length * CR.length →
      i / CR.length < SF.length ∧ i % CR.length < CR.length) ∧
    visited SF CR = (List.product SF CR).map some ∧
    (∀ s c : Nat, some (s, c) ∈ visited SF CR ↔ s ∈ SF ∧ c ∈ CR) ∧
    (SF.Nodup → CR.Nodup → (visited SF CR).Nodup) ∧
    visited sf cr =
      [some (7, 5), some (7, 8), some (8, 5), some (8, 8), some (9, 5), some (9, 8),
       some (10, 5), some (10, 8), some (11, 5), some (11, 8), some (12, 5), some (12, 8)] ∧
    visited [7, 8] [5, 8] = [some (7, 5), some (7, 8), some (8, 5), some (8, 8)] := by
  have hv := visited_eq_product SF CR
  refine ⟨fun i hi => ?_, hv, fun s c => ?_, fun h1 h2 => ?_, by decide, by decide⟩
  · have hpos : 0 < CR.length := by
      rcases Nat.eq_zero_or_pos CR.length with h0 | h
      · rw [h0, Nat.mul_zero] at hi; exact absurd hi (Nat.not_lt_zero i)
      · exact h
    exact ⟨Nat.div_lt_of_lt_mul (by rw [Nat.mul_comm]; exact hi), Nat.mod_lt i hpos⟩
  · rw [hv, List.mem_map]
    constructor
    · rintro ⟨⟨a, b⟩, hab, he⟩
      simp only [Option.some.injEq, Prod.mk.injEq] at he
      obtain ⟨rfl, rfl⟩ := he
      exact List.mem_product.1 hab
    · intro h
      exact ⟨(s, c), List.mem_product.2 h, rfl⟩
  · rw [hv]
    exact (List.Nodup.product h1 h2).map (Option.some_injective _)

/-- The scenario of the specification, `SF = {7,8}` and `CR = {5,8}`: the
four configurations are visited in the order of the product and none
twice. -/
theorem sweep_visits_each_configuration_once_witness :
    visited [7, 8] [5, 8] = (List.product [7, 8] [5, 8]).map some ∧
    (visited [7, 8] [5, 8]).Nodup ∧
    (3 / [5, 8].length < [7, 8].length ∧ 3 % [5, 8].length < [5, 8].length) :=
  ⟨(sweep_visits_each_configuration_once [7, 8] [5, 8]).2.1,
   (sweep_visits_each_configuration_once [7, 8] [5, 8]).2.2.2.1 (by decide) (by decide),
   (sweep_visits_each_configuration_once [7, 8] [5, 8]).1 3 (by decide)⟩

/-! ## Length of a sweep -/

/-- After any number of trials, `configIndex` and `trialInConfig` are the
quotient and the remainder of the number of trials done by the number of
trials per configuration. -/
theorem runSweep_count (T : Nat) (hT : 0 < T) (outcomes : List Outcome) (s : SweepState)
    (hs : s.trialInConfig < T) :
    (runSweep T s outcomes).trialInConfig + T * (runSweep T s outcomes).configIndex
        = s.trialInConfig + T * s.configIndex + outcomes.length ∧
    (runSweep T s outcomes).trialInConfig < T := by
  induction outcomes generalizing s with
  | nil => exact ⟨rfl, hs⟩
  | cons o os ih =>
    simp only [runSweep, List.length_cons]
    by_cases hr : s.trialInConfig + 1 = T
    · have e : advanceTrial T s o =
          { configIndex := s.configIndex + 1, trialInConfig := 0, currentTest := reset,
            wholeTest := recordOutcome s.wholeTest o } := by
        simp [advanceTrial, hr]
      have h := ih (advanceTrial T s o) (by rw [e]; exact hT)
      refine ⟨?_, h.2⟩
      rw [h.1, e]
      simp only [Nat.mul_add, Nat.mul_one]
      omega
    · have e : advanceTrial T s o =
          { configIndex := s.configIndex, trialInConfig := s.trialInConfig + 1,
            currentTest := recordOutcome s.currentTest o,
            wholeTest := recordOutcome s.wholeTest o } := by
        simp [advanceTrial, hr]
      have h := ih (advanceTrial T s o) (by rw [e]; show s.trialInConfig + 1 < T; omega)
      refine ⟨?_, h.2⟩
      rw [h.1, e]
      simp only []
      omega

/-- From the start of a sweep, `configIndex` is the number of trials done
divided by the number of trials per configuration. -/
theorem runSweep_configIndex (T : Nat) (hT : 0 < T) (outcomes : List Outcome) :
    (runSweep T sweepStart outcomes).configIndex = outcomes.length / T := by
  have h := runSweep_count T hT outcomes sweepStart hT
  have h1 : (runSweep T sweepStart outcomes).trialInConfig
      + T * (runSweep T sweepStart outcomes).configIndex = outcomes.length := by
    rw [h.1]; simp [sweepStart]
  exact ((Nat.div_mod_unique hT).2 ⟨h1, h.2⟩).1.symm

/-- C12: for every number `T > 0` of trials per configuration, every number
`P` of configurations and every sequence of trial outcomes fed to
`advanceTrial` from `configIndex = 0`, `trialInConfig = 0`: after exactly
`T * P` calls `isComplete()` is true and `configIndex = P`; after fewer calls
`isComplete()` is false and `configIndex < P`. With the constants of
`common.h`, `T = 100` and `P = 6 * 2 = 12`, that is after `TEST_COUNT = 1200`
calls. -/
theorem sweep_completes_after_all_trials (T P : Nat) (outcomes : List Outcome)
    (hT : 0 < T) :
    (outcomes.length = T * P →
      isComplete P (runSweep T sweepStart outcomes) = true ∧
      (runSweep T sweepStart outcomes).configIndex = P) ∧
    (outcomes.length < T * P →
      isComplete P (runSweep T sweepStart outcomes) = false ∧
      (runSweep T sweepStart outcomes).configIndex < P) ∧
    TESTS_PER_CONFIG = 100 ∧ POSSIBLE_PARAMETERS = 12 ∧ TEST_COUNT = 1200 := by
  have hc := runSweep_configIndex T hT outcomes
  refine ⟨fun h => ?_, fun h => ?_, rfl, rfl, rfl⟩
  · have e : (runSweep T sweepStart outcomes).configIndex = P := by
      rw [hc, h, Nat.mul_div_cancel_left P hT]
    exact ⟨by simp [isComplete, e], e⟩
  · have e : (runSweep T sweepStart outcomes).configIndex < P := by
      rw [hc]; exact Nat.div_lt_of_lt_mul h
    exact ⟨by simp [isComplete, e], e⟩

/-- The sweep of `common.h`, 100 trials for each of the 12 configurations,
all lost: complete after exactly `TEST_COUNT` calls, with `configIndex` equal
to `POSSIBLE_PARAMETERS`; and one call short of that, not complete. -/
theorem sweep_completes_after_all_trials_witness :
    0 < TESTS_PER_CONFIG ∧
    (List.replicate TEST_COUNT Outcome.Loss).length
      = TESTS_PER_CONFIG * POSSIBLE_PARAMETERS ∧
    isComplete POSSIBLE_PARAMETERS
      (runSweep TESTS_PER_CONFIG sweepStart (List.replicate TEST_COUNT Outcome.Loss)) = true ∧
    (runSweep TESTS_PER_CONFIG sweepStart
      (List.replicate TEST_COUNT Outcome.Loss)).configIndex = POSSIBLE_PARAMETERS ∧
    isComplete POSSIBLE_PARAMETERS
      (runSweep TESTS_PER_CONFIG sweepStart (List.replicate 1199 Outcome.Loss)) = false :=
  ⟨by decide,
   (List.length_replicate _ _).trans (Nat.mul_comm _ _),
   ((sweep_completes_after_all_trials TESTS_PER_CONFIG POSSIBLE_PARAMETERS
      (List.replicate TEST_COUNT Outcome.Loss) (by decide)).1
      ((List.length_replicate _ _).trans (Nat.mul_comm _ _))).1,
   ((sweep_completes_after_all_trials TESTS_PER_CONFIG POSSIBLE_PARAMETERS
      (List.replicate TEST_COUNT Outcome.Loss) (by decide)).1
      ((List.length_replicate _ _).trans (Nat.mul_comm _ _))).2,
   ((sweep_completes_after_all_trials TESTS_PER_CONFIG POSSIBLE_PARAMETERS
      (List.replicate 1199 Outcome.Loss) (by decide)).2.1
      (by rw [List.length_replicate]; decide)).1⟩

end Sweep
